import Mathlib

/-!
Verification development for the pygrays-api schema-driven tabular
transformation engine (aging-report pipeline, schema coercion, mapping-file
lookup construction, CSV decoding fallback, sheet partitioning and export
sorting).

The Python source is shallowly embedded:

* a CSV cell value or record field is a `Value` (Python `None`, `str`, `int`,
  `float`, `bool`, `datetime`, `decimal.Decimal`); Python floats are modelled
  as exact rationals (no claim depends on binary rounding);
* a Python dict row is a `Record`, an association list in which `set`
  prepends and `get` reads the most recent binding, matching dict update
  and lookup; absence of a key is distinguishable from a stored `None`;
* a Python `datetime` is a `PyDate` (year, month, day); the time-of-day
  component is elided because no modelled code path inspects it
  (`timedelta(days=n)` leaves it unchanged and `.date()` strips it);
* the functions mirror, line by line, `ImportField.convert`,
  `ImportField._parse_date` (src/utils/schema_config.py),
  `ExportSchema.export_data`'s sorting step,
  `AgingReportService._load_and_process_mapping_file`, the data-filtering
  and row-derivation sections of `AgingReportService.process_uploaded_file`
  (src/services/aging_report_service.py), and
  `InventoryService._load_csv_from_bytes` (src/services/inventory_service.py).

Definitions come first, all theorems afterwards.
-/

/-- A typed cell value as produced by the Python code: `None`, `str`, `int`,
`float` (modelled as an exact rational), `bool`, `datetime` (modelled by its
calendar date) or `decimal.Decimal`. -/
inductive Value where
  | null : Value
  | str : String → Value
  | intV : Int → Value
  | float : ℚ → Value
  | bool : Bool → Value
  | date : Int → Int → Int → Value
  | dec : ℚ → Value
  deriving DecidableEq, Repr

/-- A Python `datetime`, restricted to its calendar date (year, month, day).
The modelled code never inspects the time of day: `timedelta(days=n)` leaves
it unchanged and `.date()` strips it before subtraction. -/
structure PyDate where
  year : Int
  month : Int
  day : Int
  deriving DecidableEq, Repr

/-- Wrap a `PyDate` as a `Value`. -/
def Value.ofDate (d : PyDate) : Value := Value.date d.year d.month d.day

/-- The `PyDate` held by a `Value.date`. -/
def Value.dateVal : Value → Option PyDate
  | Value.date y m d => some ⟨y, m, d⟩
  | _ => none

/-- A row, as the Python code's `dict` of field name to value.  `set`
prepends a binding and `get` reads the most recent one, so reads see dict
semantics; a key bound to `Value.null` models a key stored with `None`,
distinct from an absent key. -/
def Record : Type := List (String × Value)

instance : DecidableEq Record := inferInstanceAs (DecidableEq (List (String × Value)))

instance : Membership Record (List Record) := inferInstanceAs (Membership Record (List Record))

/-- `dict.get(k, default)`: the most recent binding of `k`, or `default`. -/
def Record.getD : Record → String → Value → Value
  | [], _, dflt => dflt
  | (k, v) :: r, key, dflt => if k = key then v else Record.getD r key dflt

/-- `dict.get(k)`: the most recent binding of `k`, or `None` when absent. -/
def Record.get (r : Record) (key : String) : Value := Record.getD r key Value.null

/-- `d[k] = v`: bind `k` to `v`; the new binding shadows any previous one. -/
def Record.set (r : Record) (key : String) (v : Value) : Record := (key, v) :: r

/-- Python truthiness of a `Value`: `None` is falsy, strings are truthy iff
non-empty, numbers iff non-zero, `datetime` objects are always truthy. -/
def pyTruthy : Value → Bool
  | Value.null => false
  | Value.str s => s ≠ ""
  | Value.intV n => n ≠ 0
  | Value.float q => q ≠ 0
  | Value.bool b => b
  | Value.date _ _ _ => true
  | Value.dec q => q ≠ 0

/-- The numeric content of a value for which `isinstance(x, (int, float))`
holds.  Python `bool` is a subclass of `int`, so booleans count as 1 / 0;
`decimal.Decimal`, strings, dates and `None` do not pass the instance check. -/
def numOf : Value → Option ℚ
  | Value.intV n => some (n : ℚ)
  | Value.float q => some q
  | Value.bool b => some (if b then 1 else 0)
  | _ => none

/-- The integer content of a value for which `isinstance(x, int)` holds
(`bool` again included, as in Python). -/
def intOf : Value → Option Int
  | Value.intV n => some n
  | Value.bool b => some (if b then 1 else 0)
  | _ => none

/-- Python `str(x)` for the values the pipeline feeds through f-strings and
`str(...)` calls.  Float and decimal formatting is approximated (Python
prints `100.0` where we print `100`); no modelled code path compares the
string image of a float, so the approximation is inert. -/
def pyStr : Value → String
  | Value.null => "None"
  | Value.str s => s
  | Value.intV n => toString n
  | Value.float q => toString q
  | Value.bool b => if b then "True" else "False"
  | Value.date y m d => toString y ++ "-" ++ toString m ++ "-" ++ toString d
  | Value.dec q => toString q

/-- Python `==` between two cell values: `None` equals only `None`, strings
compare as strings, all numeric types (`int`, `float`, `bool`, `Decimal`)
compare by numeric value, `datetime`s by date, and cross-kind comparisons
are `False` (never an error). -/
def pyEqB : Value → Value → Bool
  | Value.null, Value.null => true
  | Value.str a, Value.str b => a = b
  | Value.date y m d, Value.date y' m' d' => y = y' ∧ m = m' ∧ d = d'
  | a, b =>
    match numOf a, numOf b with
    | some x, some y => x = y
    | _, _ =>
      match a, b with
      | Value.dec x, Value.dec y => x = y
      | Value.dec x, b' => (numOf b').map (fun y => decide (x = y)) |>.getD false
      | a', Value.dec y => (numOf a').map (fun x => decide (x = y)) |>.getD false
      | _, _ => false

/-- Whether `pat` starts the character list `s`. -/
def startsWithChars : List Char → List Char → Bool
  | _, [] => true
  | [], _ :: _ => false
  | c :: cs, p :: ps => c = p && startsWithChars cs ps

/-- Whether `pat` occurs (contiguously) inside the character list. -/
def occursInChars (pat : List Char) : List Char → Bool
  | [] => pat.isEmpty
  | c :: rest => startsWithChars (c :: rest) pat || occursInChars pat rest

/-- Python `pat in s` on strings (contiguous substring test). -/
def containsSub (s pat : String) : Bool := occursInChars pat.data s.data

/-- ASCII upper-casing of one character (`str.upper` on the pipeline's
ASCII field content). -/
def upChar (c : Char) : Char :=
  if 'a' ≤ c ∧ c ≤ 'z' then Char.ofNat (c.toNat - 32) else c

/-- Python `s.upper()` (ASCII range; the compared literal is `"TRUE"`). -/
def asciiUpper (s : String) : String := String.mk (s.data.map upChar)

/-!
## Exclusion filter

`AgingReportService.process_uploaded_file`, data-filtering section
(src/services/aging_report_service.py lines 335-381).  A row is dropped when
any of the four rules fires, in this order: non-null `Cheque_Date`,
`Gross_Tot == 0`, `'Buyer Cancellation Fees'` in the description, or one of
the totals-row markers in the description.  Rows that pass get the
file-level `State` added.
-/

/-- The totals-row markers of Exclusion Rule 4. -/
def totalsMarkers : List String := ["Total Invoices", "Total Payments", "Total Bankings"]

/-- One step of the data-filtering loop: `true` when the row survives all
four exclusion rules (lines 335-373). -/
def filterKeep (r : Record) : Bool :=
  if r.get "Cheque_Date" ≠ Value.null then false
  else if pyEqB (r.get "Gross_Tot") (Value.intV 0) then false
  else if pyTruthy (r.get "Description") &&
      containsSub (pyStr (r.get "Description")) "Buyer Cancellation Fees" then false
  else if pyTruthy (r.get "Description") &&
      totalsMarkers.any (fun t => containsSub (pyStr (r.get "Description")) t) then false
  else true

/-- `row_dict['State'] = state` applied to each surviving row (line 380). -/
def addState (state : String) (r : Record) : Record := r.set "State" (Value.str state)

/-- The filtered data of one file: rows surviving the exclusion rules, with
the filename-derived state added (lines 335-381). -/
def filteredRows (state : String) (daily : List Record) : List Record :=
  (daily.filter filterKeep).map (addState state)

/-!
## Calendar model

`datetime + timedelta(days=n)` and `(a.date() - b.date()).days` are modelled
through the standard proleptic-Gregorian day-number conversion (the civil
calendar algorithm), with floor division.
-/

/-- The day number (days since 1970-01-01) of a civil date. -/
def daysFromCivil (y m d : Int) : Int :=
  let y' := if m ≤ 2 then y - 1 else y
  let era := y'.fdiv 400
  let yoe := y' - era * 400
  let mp := (m + 9).emod 12
  let doy := (153 * mp + 2).fdiv 5 + d - 1
  let doe := yoe * 365 + yoe.fdiv 4 - yoe.fdiv 100 + doy
  era * 146097 + doe - 719468

/-- The civil date of a day number (inverse of `daysFromCivil`). -/
def civilFromDays (z0 : Int) : PyDate :=
  let z := z0 + 719468
  let era := z.fdiv 146097
  let doe := z - era * 146097
  let yoe := (doe - doe.fdiv 1460 + doe.fdiv 36524 - doe.fdiv 146096).fdiv 365
  let y := yoe + era * 400
  let doy := doe - (365 * yoe + yoe.fdiv 4 - yoe.fdiv 100)
  let mp := (5 * doy + 2).fdiv 153
  let d := doy - (153 * mp + 2).fdiv 5 + 1
  let m := mp + (if mp < 10 then 3 else -9)
  ⟨y + (if m ≤ 2 then 1 else 0), m, d⟩

/-- Day number of a `PyDate`. -/
def PyDate.toDays (dt : PyDate) : Int := daysFromCivil dt.year dt.month dt.day

/-- `dt + timedelta(days=n)` (the elided time of day is unchanged). -/
def addDays (dt : PyDate) (n : Int) : PyDate := civilFromDays (dt.toDays + n)

/-- `(a.date() - b.date()).days`. -/
def dateDiffDays (a b : PyDate) : Int := a.toDays - b.toDays

/-- `%b`: the abbreviated month name of `strftime`. -/
def monthAbbrev : Int → String
  | 1 => "Jan" | 2 => "Feb" | 3 => "Mar" | 4 => "Apr" | 5 => "May" | 6 => "Jun"
  | 7 => "Jul" | 8 => "Aug" | 9 => "Sep" | 10 => "Oct" | 11 => "Nov" | 12 => "Dec"
  | _ => ""

/-- `%y`: the zero-padded two-digit year of `strftime`. -/
def twoDigitYear (y : Int) : String :=
  let k := y.emod 100
  if k < 10 then "0" ++ toString k else toString k

/-- `sale_date.strftime("%b-%y")`. -/
def fmtMonthYY (dt : PyDate) : String := monthAbbrev dt.month ++ "-" ++ twoDigitYear dt.year

/-!
## Derivation pipeline

`AgingReportService.process_uploaded_file`, row-derivation section
(src/services/aging_report_service.py lines 396-537).  Each helper models
one derived column, reading the original row `r` exactly where the code
reads `row_dict` and earlier derived values where it reads `new_row`.
-/

/-- The three lookup lists built from the mapping file (each entry a dict
keyed by the mapping file's own header names). -/
structure MappingTables where
  divisionToSubdivision : List Record
  divisionnoToDivision : List Record
  divisionStateDays : List Record
  deriving DecidableEq

/-- `row_dict.get('State') or ""` (line 406). -/
def stateValOf (r : Record) : Value :=
  if pyTruthy (r.get "State") then r.get "State" else Value.str ""

/-- Line 408: the first assignment of `State-Division Name`, made while
`division_name` is still the empty string. -/
def stateDivisionInitOf (r : Record) : Value :=
  if pyTruthy (stateValOf r) then Value.str (pyStr (stateValOf r) ++ "-") else Value.str ""

/-- Lines 412-414: the first `divisionno_to_division` entry whose
`DivisionNo` equals the row's `Division` (Python `==`). -/
def divisionEntryOf (m : MappingTables) (r : Record) : Option Record :=
  m.divisionnoToDivision.find? (fun item => pyEqB (item.get "DivisionNo") (r.get "Division"))

/-- Line 415: `division_entry.get("Division", "") if division_entry else ""`. -/
def divisionNameOf (m : MappingTables) (r : Record) : Value :=
  match divisionEntryOf m r with
  | some e => e.getD "Division" (Value.str "")
  | none => Value.str ""

/-- Line 417: the composite `State-Division Name` key, empty unless both
halves are truthy. -/
def stateDivisionOf (m : MappingTables) (r : Record) : String :=
  if pyTruthy (stateValOf r) && pyTruthy (divisionNameOf m r) then
    pyStr (stateValOf r) ++ "-" ++ pyStr (divisionNameOf m r)
  else ""

/-- Lines 422-424: the first `division_state_days` entry whose
`f"{State}-{Division Name}"` image equals the composite key. -/
def stateDaysEntryOf (m : MappingTables) (r : Record) : Option Record :=
  m.divisionStateDays.find? (fun item =>
    pyStr (item.get "State") ++ "-" ++ pyStr (item.get "Division Name") == stateDivisionOf m r)

/-- Line 425: `state_days_entry.get("Days", "") if state_days_entry else ""`. -/
def paymentDaysOf (m : MappingTables) (r : Record) : Value :=
  match stateDaysEntryOf m r with
  | some e => e.getD "Days" (Value.str "")
  | none => Value.str ""

/-- Lines 429-437: `Due Date` is `Sale_Date + timedelta(days=Payment Days)`
when `Sale_Date` is a `datetime` and `Payment Days` an `int`, else `""`. -/
def dueDateOf (m : MappingTables) (r : Record) : Value :=
  match (r.get "Sale_Date").dateVal, intOf (paymentDaysOf m r) with
  | some dt, some n => Value.ofDate (addDays dt n)
  | _, _ => Value.str ""

/-- Lines 440-444: subdivision lookup keyed on the resolved division name. -/
def subDivisionNameOf (m : MappingTables) (r : Record) : Value :=
  match m.divisionToSubdivision.find?
      (fun item => pyEqB (item.get "Division") (divisionNameOf m r)) with
  | some e => e.getD "Sub Division" (Value.str "")
  | none => Value.str ""

/-- Line 448: `str(row_dict.get('Delot_Ind', "")).upper() == "TRUE"`. -/
def delotIndOf (r : Record) : Bool :=
  asciiUpper (pyStr (r.getD "Delot_Ind" (Value.str ""))) == "TRUE"

/-- Lines 451-457: the `Gross Amount` computation: gross minus `Sale_No`
when the delot flag is set and both pass `isinstance(x, (int, float))`,
else gross when it passes, else `0.0`. -/
def grossAmountOf (r : Record) : ℚ :=
  match numOf (r.get "Gross_Tot"), numOf (r.get "Sale_No") with
  | some g, some s => if delotIndOf r then g - s else g
  | some g, none => g
  | none, _ => 0

/-- Lines 461-467: `To be Collected` reads the `Day<today.day>` column;
missing or non-numeric becomes `0.0`. -/
def toBeCollectedOf (today : PyDate) (r : Record) : ℚ :=
  match numOf (r.getD ("Day" ++ toString today.day) Value.null) with
  | some q => q
  | none => 0

/-- Lines 472-475: `Collected = Gross Amount - To be Collected` (both
operands are always floats here, so the guard always passes). -/
def collectedOf (today : PyDate) (r : Record) : ℚ :=
  grossAmountOf r - toBeCollectedOf today r

/-- Lines 479-484: `Payable to Vendor` is the gross amount when the delot
flag is set and `To be Collected` is exactly `0.0`, else `0.0`. -/
def payableOf (today : PyDate) (r : Record) : ℚ :=
  if delotIndOf r then (if toBeCollectedOf today r = 0 then grossAmountOf r else 0) else 0

/-- Lines 487-497: `Month` is `Sale_Date.strftime("%b-%y")` only when the
description is truthy and the sale date is a `datetime`; else `""`. -/
def monthOf (r : Record) : Value :=
  if pyTruthy (r.get "Description") then
    match (r.get "Sale_Date").dateVal with
    | some dt => Value.str (fmtMonthYY dt)
    | none => Value.str ""
  else Value.str ""

/-- Lines 499-509: `Year` is `Sale_Date.year` under the same conditions. -/
def yearOf (r : Record) : Value :=
  if pyTruthy (r.get "Description") then
    match (r.get "Sale_Date").dateVal with
    | some dt => Value.intV dt.year
    | none => Value.str ""
  else Value.str ""

/-- Lines 512-517: `Cheque Date Y/N` from the truthiness of `Cheque_Date`. -/
def chequeYNOf (r : Record) : Value :=
  if pyTruthy (r.get "Cheque_Date") then Value.str "YES" else Value.str "NO"

/-- Lines 520-535: `Days Late for Vendors Pmt` is the positive day
difference between the reporting date and the cheque date, only when the
payable equals `Gross_Tot` (Python `==`) and `Cheque_Date` is a `datetime`;
every other case yields `''`. -/
def daysLateOf (today : PyDate) (r : Record) : Value :=
  if pyEqB (Value.float (payableOf today r)) (r.get "Gross_Tot") then
    match (r.get "Cheque_Date").dateVal with
    | some cd =>
      if dateDiffDays today cd > 0 then Value.intV (dateDiffDays today cd) else Value.str ""
    | none => Value.str ""
  else Value.str ""

/-- Lines 399-537 for a row whose `Classification` is truthy: the copy of
the row with the fourteen derived-column assignments applied in program
order (`State-Division Name` is assigned twice, at lines 408 and 417). -/
def deriveRow (m : MappingTables) (today : PyDate) (r : Record) : Record :=
  ((((((((((((((r.set "State-Division Name" (stateDivisionInitOf r)).set
    "Division Name" (divisionNameOf m r)).set
    "State-Division Name" (Value.str (stateDivisionOf m r))).set
    "Payment Days" (paymentDaysOf m r)).set
    "Due Date" (dueDateOf m r)).set
    "Sub Division Name" (subDivisionNameOf m r)).set
    "Gross Amount" (Value.float (grossAmountOf r))).set
    "To be Collected" (Value.float (toBeCollectedOf today r))).set
    "Collected" (Value.float (collectedOf today r))).set
    "Payable to Vendor" (Value.float (payableOf today r))).set
    "Month" (monthOf r)).set
    "Year" (yearOf r)).set
    "Cheque Date Y/N" (chequeYNOf r)).set
    "Days Late for Vendors Pmt" (daysLateOf today r))

/-- Lines 400-403 and 537: a row without a truthy `Classification` is
appended as a plain copy (the short-circuit); all others are derived. -/
def processRow (m : MappingTables) (today : PyDate) (r : Record) : Record :=
  if pyTruthy (r.get "Classification") then deriveRow m today r else r

/-- The full per-file pipeline on imported rows: exclusion filter, state
tagging, then row derivation. -/
def pipelineRows (m : MappingTables) (today : PyDate) (state : String)
    (daily : List Record) : List Record :=
  (filteredRows state daily).map (processRow m today)

/-- The concrete instance of C2: delot flag true, gross 100, `Sale_No` 10. -/
def delotExampleRow : Record :=
  [("Delot_Ind", Value.bool true), ("Gross_Tot", Value.float 100),
   ("Sale_No", Value.float 10)]

/-- Mapping tables for the C4 witness: one division-number row and one
state/division/days row resolving `NSW-AUTO` to 30 days. -/
def dueDateExampleMapping : MappingTables :=
  ⟨[], [[("DivisionNo", Value.str "10"), ("Division", Value.str "AUTO")]],
   [[("State", Value.str "NSW"), ("Division Name", Value.str "AUTO"),
     ("Days", Value.intV 30)]]⟩

/-- Data row for the C4 witness. -/
def dueDateExampleRow : Record :=
  [("State", Value.str "NSW"), ("Division", Value.str "10"),
   ("Sale_Date", Value.date 2024 1 15), ("Classification", Value.str "X")]

/-- C5 witness row: an empty description with a valid sale date. -/
def blankDescRow : Record := [("Description", Value.null), ("Sale_Date", Value.date 2024 3 15)]

/-- C5 witness row with a non-empty description. -/
def filledDescRow : Record :=
  [("Description", Value.str "goods"), ("Sale_Date", Value.date 2024 3 15)]

/-- A filter-surviving, classification-bearing row for the C10 witness. -/
def derivedExampleRow : Record :=
  [("Classification", Value.str "X"), ("Gross_Tot", Value.float 50),
   ("Description", Value.str "goods"), ("Sale_No", Value.str "123")]

/-!
## Mapping-file loader

`AgingReportService._load_and_process_mapping_file`
(src/services/aging_report_service.py lines 85-189).  The byte decoding and
CSV splitting of the mapping file are elided: the function receives the
parsed rows (header row first) directly.  Each lookup entry is a dict keyed
by the mapping file's own header texts (`dict(zip(headers, values))`).
-/

/-- Leading/trailing whitespace test for `str.strip()`. -/
def isSpaceChar (c : Char) : Bool := c = ' ' || c = '\t' || c = '\n' || c = '\r'

/-- Python `s.strip()`. -/
def pyStrip (s : String) : String :=
  String.mk (((s.data.dropWhile isSpaceChar).reverse.dropWhile isSpaceChar).reverse)

/-- Value of a non-empty all-digit character list (otherwise `none`). -/
def digitsToNat (cs : List Char) : Option Nat :=
  if cs.isEmpty then none
  else cs.foldl
    (fun acc c => acc.bind (fun n => if c.isDigit then some (n * 10 + (c.toNat - 48)) else none))
    (some 0)

/-- Python `int(s)`: strip, optional sign, then decimal digits; anything
else raises `ValueError` (modelled as `none`).  Underscore separators and
non-ASCII digits are elided. -/
def pyIntParse (s : String) : Option Int :=
  match (pyStrip s).data with
  | '-' :: rest => (digitsToNat rest).map (fun n => -(n : Int))
  | '+' :: rest => (digitsToNat rest).map (fun n => (n : Int))
  | cs => (digitsToNat cs).map (fun n => (n : Int))

/-- `dict(zip(keys, values))`: later duplicate keys win. -/
def mkEntry (pairs : List (String × Value)) : Record :=
  pairs.foldl (fun acc kv => acc.set kv.1 kv.2) []

/-- One two-column projection of the mapping file (indices `(0,1)` for
Division/Sub Division, `(3,4)` for DivisionNo/Division): header cells are
taken by index (`none` models the `IndexError` when the header row is too
narrow), and a data row contributes only if both indexed cells exist and
are non-empty (lines 125-151). -/
def pairTable (i j : Nat) (headers : List String) (dataRows : List (List String)) :
    Option (List Record) :=
  match headers[i]?, headers[j]? with
  | some hi, some hj =>
    some (dataRows.filterMap (fun row =>
      match [row[i]?, row[j]?].filterMap id with
      | [v0, v1] =>
        if v0 ≠ "" ∧ v1 ≠ "" then
          some (mkEntry [(hi, Value.str v0), (hj, Value.str v1)])
        else none
      | _ => none))
  | _, _ => none

/-- The three-column projection (indices 6, 7, 9) for Division Name/State/
Days (lines 153-178): rows missing any index are skipped; the `Days` entry
is replaced by its `int` value when its stripped string form parses, else
by `None`; the row contributes only when the cells under `headers[7]` and
`headers[6]` are truthy after that replacement. -/
def stateDaysTable (headers : List String) (dataRows : List (List String)) :
    Option (List Record) :=
  match headers[6]?, headers[7]?, headers[9]? with
  | some h6, some h7, some h9 =>
    some (dataRows.filterMap (fun row =>
      match row[6]?, row[7]?, row[9]? with
      | some v6, some v7, some v9 =>
        let entry0 := mkEntry [(h6, Value.str v6), (h7, Value.str v7), (h9, Value.str v9)]
        let daysStr := pyStrip (pyStr (entry0.getD "Days" (Value.str "")))
        let entry1 :=
          if daysStr ≠ "" then
            match pyIntParse daysStr with
            | some n => entry0.set "Days" (Value.intV n)
            | none => entry0.set "Days" Value.null
          else entry0.set "Days" Value.null
        if pyTruthy (entry1.get h7) && pyTruthy (entry1.get h6) then some entry1 else none
      | _, _, _ => none))
  | _, _, _ => none

/-- `_load_and_process_mapping_file` on parsed rows: an empty file is a
fatal error (`none`); otherwise each of the three projections either
succeeds or degrades to an empty table while appending one error message;
the tables themselves are returned without any duplicate-key checking. -/
def loadMapping (name : String) (tablesData : List (List String)) (errors : List String) :
    Option MappingTables × List String :=
  match tablesData with
  | [] => (none, errors ++ ["Mapping file " ++ name ++ " is empty or contains no header row."])
  | headers :: dataRows =>
    let p1 := match pairTable 0 1 headers dataRows with
      | some t => (t, errors)
      | none => ([], errors ++
          ["Mapping file " ++ name ++ " has insufficient columns for Division/Sub Division mapping."])
    let p2 := match pairTable 3 4 headers dataRows with
      | some t => (t, p1.2)
      | none => ([], p1.2 ++
          ["Mapping file " ++ name ++ " has insufficient columns for DivisionNo/Division mapping."])
    let p3 := match stateDaysTable headers dataRows with
      | some t => (t, p2.2)
      | none => ([], p2.2 ++
          ["Mapping file " ++ name ++ " has insufficient columns for Division/State/Days mapping."])
    (some ⟨p1.1, p2.1, p3.1⟩, p3.2)

/-- A mapping file whose every lookup key occurs twice with different
attribute values: `Division "AUTO"` maps to two subdivisions, `DivisionNo
"1"` to two divisions, and `NSW`/`AUTO` to two day counts. -/
def conflictMappingRows : List (List String) :=
  [["Division", "Sub Division", "c2", "DivisionNo", "Division", "c5",
    "Division Name", "State", "c8", "Days"],
   ["AUTO", "CARS", "", "1", "AUTO", "", "AUTO", "NSW", "", "30"],
   ["AUTO", "BOATS", "", "1", "INDUSTRIAL", "", "AUTO", "NSW", "", "45"]]

/-- The tables the loader builds from the conflicting mapping file. -/
def conflictLoadedTables : MappingTables :=
  ((loadMapping "map.csv" conflictMappingRows []).1).getD ⟨[], [], []⟩

/-- A data row probing the conflicted keys: division number `"1"` in state
`NSW`. -/
def conflictProbeRow : Record :=
  [("State", Value.str "NSW"), ("Division", Value.str "1")]

/-!
## Schema coercion

`ImportField.convert` and `ImportField._parse_date`
(src/utils/schema_config.py lines 15-50).  `datetime.strptime` is the
stdlib boundary: it is passed in as a function `strp : format → cell →
Option PyDate`; `strpDMY` below is a faithful concrete instance for the
`'%d/%m/%Y'` format, used by witnesses.
-/

/-- An import field declaration. -/
structure ImportField where
  field_type : String
  required : Bool := false
  formats : List String := []

/-- `_parse_date` (lines 41-50): try each configured format in order,
return the first success; when every format fails, log a warning and
return `None`. -/
def parseDateWith (strp : String → String → Option PyDate) (formats : List String)
    (s : String) : Value :=
  if s = "" then Value.null
  else
    match formats.findSome? (fun fmt => strp fmt s) with
    | some dt => Value.ofDate dt
    | none => Value.null

/-- Split a character list at its first occurrence of `'.'`. -/
def splitAtFirstDot : List Char → List Char × Option (List Char)
  | [] => ([], none)
  | c :: rest =>
    if c = '.' then ([], some rest)
    else
      let p := splitAtFirstDot rest
      (c :: p.1, p.2)

/-- Value of a possibly empty all-digit character list (`some 0` when
empty, `none` on a non-digit). -/
def natValOfDigits (cs : List Char) : Option Nat :=
  cs.foldl
    (fun acc c => acc.bind (fun n => if c.isDigit then some (n * 10 + (c.toNat - 48)) else none))
    (some 0)

/-- Numeric value of an unsigned `digits[.digits]` character list; `none`
when there is a second dot, a non-digit, or no digit at all. -/
def ratOfChars (cs : List Char) : Option ℚ :=
  match splitAtFirstDot cs with
  | (ip, none) => (digitsToNat ip).map (fun n => (n : ℚ))
  | (ip, some fp) =>
    if ip.isEmpty ∧ fp.isEmpty then none
    else
      match natValOfDigits ip, natValOfDigits fp with
      | some a, some b => some ((a : ℚ) + (b : ℚ) / ((10 : ℚ) ^ fp.length))
      | _, _ => none

/-- Python `float(s)`: strip, optional sign, `digits[.digits]`.  Exponent
and special forms (`inf`, `nan`) are elided; no schema cell uses them. -/
def pyFloatParse (s : String) : Option ℚ :=
  match (pyStrip s).data with
  | '-' :: rest => (ratOfChars rest).map (fun q => -q)
  | '+' :: rest => ratOfChars rest
  | cs => ratOfChars cs

/-- `re.sub(r'[^\d.]', '', str(value))`: keep only digits and dots. -/
def cleanDecimal (s : String) : String :=
  String.mk (s.data.filter (fun c => c.isDigit || c = '.'))

/-- `ImportField.convert` (lines 21-39) on a raw CSV cell string: empty
cells become `None` (or stay the empty string for required fields); each
typed branch parses, and a parse failure returns the original value
unchanged — except the `datetime` branch, whose `_parse_date` themselves
returns `None` and never raises. -/
def ImportField.convert (strp : String → String → Option PyDate) (f : ImportField)
    (value : String) : Value :=
  if value = "" then (if f.required then Value.str value else Value.null)
  else if f.field_type = "datetime" then parseDateWith strp f.formats value
  else if f.field_type = "float" then
    match pyFloatParse value with
    | some q => Value.float q
    | none => Value.str value
  else if f.field_type = "integer" then
    match pyIntParse value with
    | some n => Value.intV n
    | none => Value.str value
  else if f.field_type = "boolean" then
    Value.bool (["TRUE", "YES", "Y", "1"].contains (asciiUpper value))
  else if f.field_type = "decimal" then
    match ratOfChars (cleanDecimal value).data with
    | some q => Value.dec q
    | none => Value.str value
  else Value.str value

/-- Split a character list on a separator character. -/
def splitOnChar (sep : Char) : List Char → List (List Char)
  | [] => [[]]
  | c :: rest =>
    if c = sep then [] :: splitOnChar sep rest
    else
      match splitOnChar sep rest with
      | [] => [[c]]
      | g :: gs => (c :: g) :: gs

/-- Gregorian leap-year test. -/
def isLeap (y : Int) : Bool := (y.emod 4 = 0 ∧ y.emod 100 ≠ 0) ∨ y.emod 400 = 0

/-- Days in a month, for `strptime`'s day-of-month validation. -/
def daysInMonth (y m : Int) : Int :=
  if m = 2 then (if isLeap y then 29 else 28)
  else if m = 4 ∨ m = 6 ∨ m = 9 ∨ m = 11 then 30
  else 31

/-- A concrete instance of the `datetime.strptime` boundary covering the
schema's date-only format `'%d/%m/%Y'` (day and month of one or two
digits, validated against the calendar); other formats fail.  Witnesses
use it as the stdlib stand-in. -/
def strpDMY (fmt s : String) : Option PyDate :=
  if fmt = "%d/%m/%Y" then
    match splitOnChar '/' s.data with
    | [ds, ms, ys] =>
      match digitsToNat ds, digitsToNat ms, digitsToNat ys with
      | some d, some m, some y =>
        if 1 ≤ m ∧ m ≤ 12 ∧ 1 ≤ (d : Int) ∧ (d : Int) ≤ daysInMonth (y : Int) (m : Int) ∧
            1 ≤ y ∧ y ≤ 9999 then
          some ⟨(y : Int), (m : Int), (d : Int)⟩
        else none
      | _, _, _ => none
    | _ => none
  else none

/-- The `Cheque_Date` import field from
`aging_report_daily_data_import_schema` (src/utils/schema_config.py line
196). -/
def chequeDateImportField : ImportField :=
  ⟨"datetime", false, ["%d/%m/%Y %H:%M", "%d/%m/%Y %I:%M:%S %p", "%d/%m/%Y"]⟩

/-!
## CSV byte decoding

`InventoryService._load_csv_from_bytes` (src/services/inventory_service.py
lines 74-119) and the decode step of `ImportSchema.import_data`
(src/utils/schema_config.py lines 88-121).  CSV row splitting is elided:
the loader returns the decoded text, and the code's "some rows were read"
test is equivalent to the text being non-empty (csv.reader yields at least
one row for any non-empty text, and the empty-sample check skips an
encoding exactly when the decoded text is empty).
-/

/-- Continuation-byte test for UTF-8. -/
def isContByte (b : Nat) : Bool := 128 ≤ b ∧ b < 192

/-- Strict UTF-8 decoding of a byte list (as Python `bytes.decode('utf-8')`):
rejects stray continuation bytes, overlong forms, surrogates and
out-of-range code points. -/
def utf8DecodeChars : List Nat → Option (List Char)
  | [] => some []
  | b :: rest =>
    if b < 128 then (utf8DecodeChars rest).map (fun cs => Char.ofNat b :: cs)
    else if b < 194 then none
    else if b < 224 then
      match rest with
      | b1 :: rest2 =>
        if isContByte b1 then
          (utf8DecodeChars rest2).map (fun cs => Char.ofNat ((b - 192) * 64 + (b1 - 128)) :: cs)
        else none
      | [] => none
    else if b < 240 then
      match rest with
      | b1 :: b2 :: rest3 =>
        if isContByte b1 && isContByte b2 then
          let cp := (b - 224) * 4096 + (b1 - 128) * 64 + (b2 - 128)
          if 2048 ≤ cp ∧ ¬(55296 ≤ cp ∧ cp ≤ 57343) then
            (utf8DecodeChars rest3).map (fun cs => Char.ofNat cp :: cs)
          else none
        else none
      | _ => none
    else if b < 245 then
      match rest with
      | b1 :: b2 :: b3 :: rest4 =>
        if isContByte b1 && isContByte b2 && isContByte b3 then
          let cp := (b - 240) * 262144 + (b1 - 128) * 4096 + (b2 - 128) * 64 + (b3 - 128)
          if 65536 ≤ cp ∧ cp ≤ 1114111 then
            (utf8DecodeChars rest4).map (fun cs => Char.ofNat cp :: cs)
          else none
        else none
      | _ => none
    else none

/-- `bytes.decode('utf-8')`. -/
def utf8Decode (bs : List Nat) : Option String := (utf8DecodeChars bs).map String.mk

/-- `bytes.decode('utf-8-sig')`: strip one leading BOM, then UTF-8. -/
def utf8SigDecode (bs : List Nat) : Option String :=
  match bs with
  | 239 :: 187 :: 191 :: rest => (utf8DecodeChars rest).map String.mk
  | _ => (utf8DecodeChars bs).map String.mk

/-- `bytes.decode('latin-1')`: every byte maps to the code point of the
same value; this decoding never fails. -/
def latin1Decode (bs : List Nat) : String := String.mk (bs.map Char.ofNat)

/-- The decode step of `ImportSchema.import_data` (line 90): only
`utf-8-sig` is tried; any decode error is caught, appended to the error
list and the file yields no rows — a fatal error for that file. -/
def importDataDecode (raw : List Nat) : Except String String :=
  match utf8SigDecode raw with
  | some t => Except.ok t
  | none => Except.error "Error importing data: UnicodeDecodeError"

/-- The `latin-1` (third) attempt of `_load_csv_from_bytes`. -/
def latin1Step (bs : List Nat) : Except String String :=
  if latin1Decode bs ≠ "" then Except.ok (latin1Decode bs)
  else Except.error "Failed to decode CSV data with any encoding"

/-- The plain-UTF-8 (second) attempt, falling through to `latin-1`. -/
def utf8Step (bs : List Nat) : Except String String :=
  match utf8Decode bs with
  | some t => if t ≠ "" then Except.ok t else latin1Step bs
  | none => latin1Step bs

/-- `_load_csv_from_bytes`: try `utf-8-sig`, `utf-8`, `latin-1` in that
order, taking the first decode that yields non-empty text; raise
`ValueError` only when every attempt fails or decodes to empty text. -/
def loadCsvFromBytes (bs : List Nat) : Except String String :=
  match utf8SigDecode bs with
  | some t => if t ≠ "" then Except.ok t else utf8Step bs
  | none => utf8Step bs

/-!
## Division report partitioning

`AgingReportService.process_uploaded_file`, report-assembly section
(src/services/aging_report_service.py lines 591-627).
-/

/-- The `DivAUTO` sub-division criteria (line 592). -/
def filterCriteriaAuto : List String :=
  ["BANKING, INSOLVENCY & FINANCE", "CONSUMER", "INDUSTRIAL", "WINE"]

/-- Line 601: rows whose `Sub Division Name` is in the criteria list
(Python `in`, element equality). -/
def divisionReportData (criteria : List String) (allProcessed : List Record) : List Record :=
  allProcessed.filter (fun row => criteria.any (fun c => pyEqB (row.get "Sub Division Name") (Value.str c)))

/-- Line 610: the `FULLY PAID` sheet, rows with `To be Collected == 0.0`. -/
def fullyPaidData (rows : List Record) : List Record :=
  rows.filter (fun row => pyEqB (row.get "To be Collected") (Value.float 0))

/-- Line 620: the `NOT FULLY PAID` sheet, rows with `To be Collected != 0.0`. -/
def notFullyPaidData (rows : List Record) : List Record :=
  rows.filter (fun row => !pyEqB (row.get "To be Collected") (Value.float 0))

/-!
## Export sorting

`ExportSchema.export_data`, sorting step (src/utils/schema_config.py lines
138-146).  `sorted(...)` with the key `row.get(sort_by, datetime.min)` is
modelled as a stable insertion sort whose comparator is partial: a Python
`<` between incomparable kinds (e.g. `str` and `datetime`) raises
`TypeError`, which `export_data` catches, falling back to the unsorted
data.
-/

/-- `datetime.min`'s date. -/
def dateMin : PyDate := ⟨1, 1, 1⟩

/-- Lexicographic `<` on dates (Python `datetime` comparison). -/
def dateLtB (a b : PyDate) : Bool :=
  decide (a.year < b.year ∨ (a.year = b.year ∧
    (a.month < b.month ∨ (a.month = b.month ∧ a.day < b.day))))

/-- Numeric view used by Python `<`: `int`, `float`, `bool` and `Decimal`
are mutually comparable. -/
def numOrd : Value → Option ℚ
  | Value.dec q => some q
  | v => numOf v

/-- Python `<` on cell values: `some` of the comparison for comparable
kinds, `none` for the `TypeError` of incomparable kinds. -/
def pyLt (a b : Value) : Option Bool :=
  match a, b with
  | Value.str x, Value.str y => some (decide (x < y))
  | Value.date y1 m1 d1, Value.date y2 m2 d2 => some (dateLtB ⟨y1, m1, d1⟩ ⟨y2, m2, d2⟩)
  | _, _ =>
    match numOrd a, numOrd b with
    | some x, some y => some (decide (x < y))
    | _, _ => none

/-- The sort key of line 142: `row.get(self.sort_by, datetime.min)`. -/
def exportKey (sortBy : String) (r : Record) : Value :=
  r.getD sortBy (Value.ofDate dateMin)

/-- Insert one element into an already sorted prefix; `Except.error ()`
models a `TypeError` escaping from a comparison. -/
def insertSortedE (cmp : Value → Value → Option Bool) (key : Record → Value) (x : Record) :
    List Record → Except Unit (List Record)
  | [] => Except.ok [x]
  | y :: ys =>
    match cmp (key x) (key y) with
    | none => Except.error ()
    | some true => Except.ok (x :: y :: ys)
    | some false => (insertSortedE cmp key x ys).map (fun l => y :: l)

/-- A stable sort with a partial comparator: processes the rows in order,
inserting each after any equal-keyed earlier row (CPython's `sorted` is
likewise stable; on totally comparable keys every stable ascending sort
produces this output). -/
def sortRecordsE (cmp : Value → Value → Option Bool) (key : Record → Value)
    (l : List Record) : Except Unit (List Record) :=
  l.foldlM (fun acc x => insertSortedE cmp key x acc) []

/-- The sorting step of `export_data` (lines 139-146): sort only when a
sort column is configured and present among the headers; a `TypeError`
inside `sorted` is caught and the data is used unsorted; no error
propagates to the caller. -/
def exportSortedData (sortBy : Option String) (headers : List String) (ascending : Bool)
    (data : List Record) : List Record :=
  match sortBy with
  | none => data
  | some k =>
    if k ≠ "" ∧ headers.contains k = true then
      match sortRecordsE (if ascending then pyLt else fun a b => pyLt b a) (exportKey k) data with
      | Except.ok l => l
      | Except.error _ => data
    else data

/-- The key date of a record under hypothesis that the key is a date. -/
def keyDateOf (k : String) (r : Record) : PyDate := ((exportKey k r).dateVal).getD dateMin

/-- C9 counterexample data: a row whose `Due Date` holds the empty string. -/
def emptyDueRow : Record := [("Due Date", Value.str "")]

/-- C9 counterexample data: a row missing the `Due Date` key entirely. -/
def noDueRow : Record := [("Comments", Value.str "x")]

/-- C8/C9 witness rows. -/
def paidWineRow : Record :=
  [("Sub Division Name", Value.str "WINE"), ("To be Collected", Value.float 0)]

/-- C8 witness: an unpaid WINE row. -/
def unpaidWineRow : Record :=
  [("Sub Division Name", Value.str "WINE"), ("To be Collected", Value.float 5)]

/-- C8 witness: a row outside the criteria. -/
def autoWRow : Record :=
  [("Sub Division Name", Value.str "AUTO W"), ("To be Collected", Value.float 5)]

/-- C9 amended-claim witness rows: a dated row and a keyless row. -/
def datedDueRow : Record := [("Due Date", Value.date 2024 5 2)]

/-!
## Theorems

Record-access and pipeline lemmas first, then one theorem (with witness
or counterexample) per claim.
-/

theorem Record.get_set_same (r : Record) (k : String) (v : Value) :
    (r.set k v).get k = v := by
  simp [Record.set, Record.get, Record.getD]

theorem Record.get_set_ne (r : Record) (k k' : String) (v : Value) (h : k ≠ k') :
    (r.set k v).get k' = r.get k' := by
  simp [Record.set, Record.get, Record.getD, h]

theorem deriveRow_get_grossAmount (m : MappingTables) (today : PyDate) (r : Record) :
    (deriveRow m today r).get "Gross Amount" = Value.float (grossAmountOf r) := by
  simp [deriveRow, Record.set, Record.get, Record.getD]

theorem deriveRow_get_dueDate (m : MappingTables) (today : PyDate) (r : Record) :
    (deriveRow m today r).get "Due Date" = dueDateOf m r := by
  simp [deriveRow, Record.set, Record.get, Record.getD]

theorem deriveRow_get_month (m : MappingTables) (today : PyDate) (r : Record) :
    (deriveRow m today r).get "Month" = monthOf r := by
  simp [deriveRow, Record.set, Record.get, Record.getD]

theorem deriveRow_get_year (m : MappingTables) (today : PyDate) (r : Record) :
    (deriveRow m today r).get "Year" = yearOf r := by
  simp [deriveRow, Record.set, Record.get, Record.getD]

theorem deriveRow_get_chequeYN (m : MappingTables) (today : PyDate) (r : Record) :
    (deriveRow m today r).get "Cheque Date Y/N" = chequeYNOf r := by
  simp [deriveRow, Record.set, Record.get, Record.getD]

theorem deriveRow_get_daysLate (m : MappingTables) (today : PyDate) (r : Record) :
    (deriveRow m today r).get "Days Late for Vendors Pmt" = daysLateOf today r := by
  simp [deriveRow, Record.set, Record.get, Record.getD]

/-- A row surviving the exclusion filter has a null `Cheque_Date` (the
first exclusion rule did not fire). -/
theorem filterKeep_chequeDate_null (r : Record) (h : filterKeep r = true) :
    r.get "Cheque_Date" = Value.null := by
  by_contra hne
  simp [filterKeep, hne] at h

/-- C3: a row whose `Cheque_Date` is non-null is dropped by the exclusion
filter regardless of every other field: it fails `filterKeep` and therefore
never appears among the filter's survivors, which are the only rows the
derivation pipeline receives. -/
theorem chequeDate_row_always_dropped (r : Record)
    (h : r.get "Cheque_Date" ≠ Value.null) :
    filterKeep r = false ∧ ∀ daily : List Record, r ∉ daily.filter filterKeep := by
  have hk : filterKeep r = false := by simp [filterKeep, h]
  refine ⟨hk, ?_⟩
  intro daily hmem
  have := List.of_mem_filter hmem
  rw [hk] at this
  exact Bool.false_ne_true this

/-- Witness for C3: a concrete row with a non-null `Cheque_Date` (and a
non-zero gross, an innocuous description) is dropped. -/
theorem chequeDate_row_always_dropped_witness :
    filterKeep [("Cheque_Date", Value.date 2024 5 1), ("Gross_Tot", Value.float 100),
      ("Description", Value.str "widgets")] = false := by
  exact (chequeDate_row_always_dropped _ (by decide)).1

/-- C2: the derived `Gross Amount` of a filtered row is gross minus
`Sale_No` when `Delot_Ind` is true and both pass the numeric instance
check, else the gross when it passes, else exactly the numeric `0.0`; in
particular `Delot_Ind=true, Gross_Tot=100, Sale_No=10` yields exactly `90`. -/
theorem grossAmount_formula (m : MappingTables) (today : PyDate) (r : Record) :
    (∀ g s : ℚ, delotIndOf r = true → numOf (r.get "Gross_Tot") = some g →
        numOf (r.get "Sale_No") = some s →
        (deriveRow m today r).get "Gross Amount" = Value.float (g - s)) ∧
    (∀ g : ℚ, (delotIndOf r = false ∨ numOf (r.get "Sale_No") = none) →
        numOf (r.get "Gross_Tot") = some g →
        (deriveRow m today r).get "Gross Amount" = Value.float g) ∧
    (numOf (r.get "Gross_Tot") = none →
        (deriveRow m today r).get "Gross Amount" = Value.float 0) ∧
    (deriveRow m today delotExampleRow).get "Gross Amount" = Value.float 90 := by
  refine ⟨?_, ?_, ?_, ?_⟩
  · intro g s hd hg hs
    rw [deriveRow_get_grossAmount]
    simp [grossAmountOf, hd, hg, hs]
  · intro g hcase hg
    rw [deriveRow_get_grossAmount]
    rcases hcase with hd | hs
    · rcases h : numOf (r.get "Sale_No") with _ | s
      · simp [grossAmountOf, hg, h]
      · simp [grossAmountOf, hg, h, hd]
    · simp [grossAmountOf, hg, hs]
  · intro hg
    rw [deriveRow_get_grossAmount]
    rcases h : numOf (r.get "Sale_No") with _ | s <;> simp [grossAmountOf, hg, h]
  · rw [deriveRow_get_grossAmount]
    have hd : delotIndOf delotExampleRow = true := by decide
    have hg : numOf (delotExampleRow.get "Gross_Tot") = some 100 := by decide
    have hs : numOf (delotExampleRow.get "Sale_No") = some 10 := by decide
    have h90 : grossAmountOf delotExampleRow = 90 := by
      simp only [grossAmountOf, hg, hs, hd, if_true]
      norm_num
    rw [h90]

/-- Witness for C2 at `Delot_Ind=true, Gross_Tot=100, Sale_No=10`. -/
theorem grossAmount_formula_witness :
    (deriveRow ⟨[], [], []⟩ ⟨2024, 6, 15⟩ delotExampleRow).get "Gross Amount" =
      Value.float 90 := by
  have h := (grossAmount_formula ⟨[], [], []⟩ ⟨2024, 6, 15⟩ delotExampleRow).1
    100 10 (by decide) (by decide) (by decide)
  have h90 : (100 - 10 : ℚ) = 90 := by norm_num
  rw [h90] at h
  exact h

/-- C4: the derived `Due Date` is the sale date plus the resolved
`Payment Days` in days exactly when the sale date is a true date and the
terms value is an `int`; otherwise (including a terms-lookup miss, which
leaves `Payment Days` the empty string) it is the empty string — never a
default and never zero. -/
theorem dueDate_formula (m : MappingTables) (today : PyDate) (r : Record) :
    (∀ dt n, (r.get "Sale_Date").dateVal = some dt →
        intOf (paymentDaysOf m r) = some n →
        (deriveRow m today r).get "Due Date" = Value.ofDate (addDays dt n)) ∧
    (intOf (paymentDaysOf m r) = none →
        (deriveRow m today r).get "Due Date" = Value.str "") ∧
    ((r.get "Sale_Date").dateVal = none →
        (deriveRow m today r).get "Due Date" = Value.str "") ∧
    (stateDaysEntryOf m r = none →
        paymentDaysOf m r = Value.str "" ∧ intOf (paymentDaysOf m r) = none) := by
  refine ⟨?_, ?_, ?_, ?_⟩
  · intro dt n hdt hn
    rw [deriveRow_get_dueDate]
    simp [dueDateOf, hdt, hn]
  · intro hn
    rw [deriveRow_get_dueDate]
    rcases h : (r.get "Sale_Date").dateVal with _ | dt <;> simp [dueDateOf, h, hn]
  · intro hdt
    rw [deriveRow_get_dueDate]
    rcases h : intOf (paymentDaysOf m r) with _ | n <;> simp [dueDateOf, hdt, h]
  · intro hmiss
    have hpd : paymentDaysOf m r = Value.str "" := by simp [paymentDaysOf, hmiss]
    exact ⟨hpd, by rw [hpd]; rfl⟩

/-- Witness for C4: sale date 2024-01-15 plus 30 resolved days gives a due
date of 2024-02-14. -/
theorem dueDate_formula_witness :
    (deriveRow dueDateExampleMapping ⟨2024, 6, 15⟩ dueDateExampleRow).get "Due Date" =
      Value.ofDate ⟨2024, 2, 14⟩ := by
  have h := (dueDate_formula dueDateExampleMapping ⟨2024, 6, 15⟩ dueDateExampleRow).1
    ⟨2024, 1, 15⟩ 30 (by decide) (by decide)
  have hadd : addDays ⟨2024, 1, 15⟩ 30 = ⟨2024, 2, 14⟩ := by decide
  rw [hadd] at h
  exact h

/-- C5: when the description is falsy the derived `Month` and `Year` are
both empty strings even for a valid sale date; when the description is
truthy and the sale date is a `datetime`, `Month` is the `%b-%y` image and
`Year` the date's year. -/
theorem monthYear_formula (m : MappingTables) (today : PyDate) (r : Record) :
    (pyTruthy (r.get "Description") = false →
        (deriveRow m today r).get "Month" = Value.str "" ∧
        (deriveRow m today r).get "Year" = Value.str "") ∧
    (∀ dt, pyTruthy (r.get "Description") = true →
        (r.get "Sale_Date").dateVal = some dt →
        (deriveRow m today r).get "Month" = Value.str (fmtMonthYY dt) ∧
        (deriveRow m today r).get "Year" = Value.intV dt.year) := by
  constructor
  · intro hd
    rw [deriveRow_get_month, deriveRow_get_year]
    exact ⟨by simp [monthOf, hd], by simp [yearOf, hd]⟩
  · intro dt hd hdt
    rw [deriveRow_get_month, deriveRow_get_year]
    exact ⟨by simp [monthOf, hd, hdt], by simp [yearOf, hd, hdt]⟩

/-- Witness for C5: the blank-description quirk on a valid date, and the
ordinary `Mar-24` / `2024` labels when the description is present. -/
theorem monthYear_formula_witness :
    ((deriveRow ⟨[], [], []⟩ ⟨2024, 6, 15⟩ blankDescRow).get "Month" = Value.str "" ∧
     (deriveRow ⟨[], [], []⟩ ⟨2024, 6, 15⟩ blankDescRow).get "Year" = Value.str "") ∧
    ((deriveRow ⟨[], [], []⟩ ⟨2024, 6, 15⟩ filledDescRow).get "Month" = Value.str "Mar-24" ∧
     (deriveRow ⟨[], [], []⟩ ⟨2024, 6, 15⟩ filledDescRow).get "Year" = Value.intV 2024) := by
  constructor
  · exact (monthYear_formula ⟨[], [], []⟩ ⟨2024, 6, 15⟩ blankDescRow).1 (by decide)
  · have h := (monthYear_formula ⟨[], [], []⟩ ⟨2024, 6, 15⟩ filledDescRow).2
      ⟨2024, 3, 15⟩ (by decide) (by decide)
    have hf : fmtMonthYY ⟨2024, 3, 15⟩ = "Mar-24" := by decide
    rw [hf] at h
    exact h

/-- C10: every pipeline-output row that went through derivation (its
`Classification` is truthy; pass-through rows skip derivation) has
`Cheque Date Y/N = "NO"` and `Days Late for Vendors Pmt = ''`: the
exclusion filter removed every row with a non-null `Cheque_Date` before
derivation, so the `"YES"` branch and the positive days-late branch are
unreachable in the produced output. -/
theorem settled_branches_unreachable (m : MappingTables) (today : PyDate)
    (state : String) (daily : List Record) (out : Record)
    (hmem : out ∈ pipelineRows m today state daily)
    (hcls : pyTruthy (out.get "Classification") = true) :
    out.get "Cheque Date Y/N" = Value.str "NO" ∧
    out.get "Days Late for Vendors Pmt" = Value.str "" := by
  obtain ⟨r', hr', rfl⟩ := List.mem_map.mp hmem
  obtain ⟨r, hrf, rfl⟩ := List.mem_map.mp hr'
  have hkeep : filterKeep r = true := List.of_mem_filter hrf
  have hch : r.get "Cheque_Date" = Value.null := filterKeep_chequeDate_null r hkeep
  have hch' : (addState state r).get "Cheque_Date" = Value.null := by
    rw [addState, Record.get_set_ne _ _ _ _ (by decide)]
    exact hch
  by_cases hc : pyTruthy ((addState state r).get "Classification") = true
  · rw [processRow, if_pos hc]
    constructor
    · rw [deriveRow_get_chequeYN]
      simp [chequeYNOf, hch', pyTruthy]
    · rw [deriveRow_get_daysLate]
      simp [daysLateOf, hch', Value.dateVal]
  · rw [processRow, if_neg hc] at hcls
    exact absurd hcls hc

/-- Witness for C10 on a one-row pipeline. -/
theorem settled_branches_unreachable_witness :
    (processRow ⟨[], [], []⟩ ⟨2024, 6, 15⟩ (addState "NSW" derivedExampleRow)).get
        "Cheque Date Y/N" = Value.str "NO" ∧
    (processRow ⟨[], [], []⟩ ⟨2024, 6, 15⟩ (addState "NSW" derivedExampleRow)).get
        "Days Late for Vendors Pmt" = Value.str "" := by
  have hfk : filterKeep derivedExampleRow = true := by decide
  have hpipe : pipelineRows ⟨[], [], []⟩ ⟨2024, 6, 15⟩ "NSW" [derivedExampleRow] =
      [processRow ⟨[], [], []⟩ ⟨2024, 6, 15⟩ (addState "NSW" derivedExampleRow)] := by
    simp [pipelineRows, filteredRows, hfk]
  exact settled_branches_unreachable ⟨[], [], []⟩ ⟨2024, 6, 15⟩ "NSW" [derivedExampleRow] _
    (by rw [hpipe]; exact List.mem_singleton.mpr rfl) (by decide)

/-- C1 counterexample: a mapping file in which every lookup key occurs in
two data rows with different attribute values loads with NO error recorded
(`errors` stays empty, the tables are returned), and each join silently
resolves to the first matching row (`DivisionNo "1" → "AUTO"`, division
`"AUTO" → "CARS"`, `NSW-AUTO → 30` — the second values `"INDUSTRIAL"`,
`"BOATS"`, `45` are never surfaced).  This refutes the claim that the load
fails with a complete list of conflicting keys. -/
theorem loadMapping_conflict_counterexample :
    (loadMapping "map.csv" conflictMappingRows []).2 = [] ∧
    (loadMapping "map.csv" conflictMappingRows []).1 = some conflictLoadedTables ∧
    divisionNameOf conflictLoadedTables conflictProbeRow = Value.str "AUTO" ∧
    subDivisionNameOf conflictLoadedTables conflictProbeRow = Value.str "CARS" ∧
    paymentDaysOf conflictLoadedTables conflictProbeRow = Value.intV 30 :=
  ⟨rfl, rfl, rfl, rfl, rfl⟩

/-- C1 (amended): the mapping-file loader performs no duplicate-key
detection at all: whenever the header row has the full ten columns, the
load succeeds and appends no error, whatever the data rows contain —
conflicting keys included; joins later use the first matching row. -/
theorem loadMapping_never_fails_on_conflicts (name : String) (headers : List String)
    (dataRows : List (List String)) (errors : List String) (h : 10 ≤ headers.length) :
    loadMapping name (headers :: dataRows) errors =
      (some ⟨(pairTable 0 1 headers dataRows).getD [],
             (pairTable 3 4 headers dataRows).getD [],
             (stateDaysTable headers dataRows).getD []⟩, errors) := by
  obtain ⟨t1, h1⟩ : ∃ t, pairTable 0 1 headers dataRows = some t := by
    unfold pairTable
    rw [List.getElem?_eq_getElem (by omega), List.getElem?_eq_getElem (by omega)]
    exact ⟨_, rfl⟩
  obtain ⟨t2, h2⟩ : ∃ t, pairTable 3 4 headers dataRows = some t := by
    unfold pairTable
    rw [List.getElem?_eq_getElem (by omega), List.getElem?_eq_getElem (by omega)]
    exact ⟨_, rfl⟩
  obtain ⟨t3, h3⟩ : ∃ t, stateDaysTable headers dataRows = some t := by
    unfold stateDaysTable
    rw [List.getElem?_eq_getElem (by omega), List.getElem?_eq_getElem (by omega),
      List.getElem?_eq_getElem (by omega)]
    exact ⟨_, rfl⟩
  simp [loadMapping, h1, h2, h3]

/-- Witness for the amended C1 at the conflicting mapping file (ten header
columns): no error is appended. -/
theorem loadMapping_never_fails_on_conflicts_witness :
    (loadMapping "map.csv" conflictMappingRows []).2 = [] := by
  have heq : conflictMappingRows =
      ["Division", "Sub Division", "c2", "DivisionNo", "Division", "c5",
       "Division Name", "State", "c8", "Days"] ::
      [["AUTO", "CARS", "", "1", "AUTO", "", "AUTO", "NSW", "", "30"],
       ["AUTO", "BOATS", "", "1", "INDUSTRIAL", "", "AUTO", "NSW", "", "45"]] := rfl
  rw [heq, loadMapping_never_fails_on_conflicts _ _ _ _ (by decide)]

/-- Splitting a list by a boolean predicate and its negation preserves the
total length. -/
theorem length_filter_add_length_filter_not (p : Record → Bool) (l : List Record) :
    (l.filter p).length + (l.filter (fun x => !(p x))).length = l.length := by
  induction l with
  | nil => rfl
  | cons x xs ih =>
    by_cases h : p x = true <;> simp [List.filter_cons, h] <;> omega

/-- C8: within one division report, the `FULLY PAID` and `NOT FULLY PAID`
sheets partition the selected batch by `To be Collected == 0.0`: every
selected record lands in exactly one of the two sheets, none in both, and
the sheet sizes add up to the batch size. -/
theorem fullyPaid_partition (criteria : List String) (allProcessed : List Record) :
    (∀ r ∈ divisionReportData criteria allProcessed,
        (r ∈ fullyPaidData (divisionReportData criteria allProcessed) ∧
         r ∉ notFullyPaidData (divisionReportData criteria allProcessed)) ∨
        (r ∉ fullyPaidData (divisionReportData criteria allProcessed) ∧
         r ∈ notFullyPaidData (divisionReportData criteria allProcessed))) ∧
    (∀ r : Record, ¬(r ∈ fullyPaidData (divisionReportData criteria allProcessed) ∧
        r ∈ notFullyPaidData (divisionReportData criteria allProcessed))) ∧
    (fullyPaidData (divisionReportData criteria allProcessed)).length +
      (notFullyPaidData (divisionReportData criteria allProcessed)).length =
      (divisionReportData criteria allProcessed).length := by
  refine ⟨?_, ?_, ?_⟩
  · intro r hr
    by_cases h : pyEqB (r.get "To be Collected") (Value.float 0) = true
    · left
      refine ⟨List.mem_filter.mpr ⟨hr, h⟩, fun hmem => ?_⟩
      have h2 := (List.mem_filter.mp hmem).2
      simp [h] at h2
    · right
      refine ⟨fun hmem => ?_, List.mem_filter.mpr ⟨hr, by simp [h]⟩⟩
      exact h (List.mem_filter.mp hmem).2
  · rintro r ⟨h1, h2⟩
    have e1 := (List.mem_filter.mp h1).2
    have e2 := (List.mem_filter.mp h2).2
    simp [e1] at e2
  · exact length_filter_add_length_filter_not _ _

/-- Witness for C8: in the `DivAUTO` report over a three-row batch, the
fully-paid WINE row lands in `FULLY PAID` only. -/
theorem fullyPaid_partition_witness :
    (paidWineRow ∈ fullyPaidData
        (divisionReportData filterCriteriaAuto [paidWineRow, unpaidWineRow, autoWRow]) ∧
     paidWineRow ∉ notFullyPaidData
        (divisionReportData filterCriteriaAuto [paidWineRow, unpaidWineRow, autoWRow])) ∨
    (paidWineRow ∉ fullyPaidData
        (divisionReportData filterCriteriaAuto [paidWineRow, unpaidWineRow, autoWRow]) ∧
     paidWineRow ∈ notFullyPaidData
        (divisionReportData filterCriteriaAuto [paidWineRow, unpaidWineRow, autoWRow])) :=
  (fullyPaid_partition filterCriteriaAuto [paidWineRow, unpaidWineRow, autoWRow]).1
    paidWineRow (by decide)

/-- C7 counterexample: the byte string `0x41 0xFF` is not valid UTF-8 but
decodes under the `latin-1` fallback; the inventory loader therefore
succeeds on it, while the schema import's decode — which tries only
UTF-8-with-BOM — fails the file.  This refutes the claim that every input
file is decoded with the three-step fallback. -/
theorem import_decode_counterexample :
    importDataDecode [65, 255] = Except.error "Error importing data: UnicodeDecodeError" ∧
    loadCsvFromBytes [65, 255] = Except.ok (latin1Decode [65, 255]) ∧
    latin1Decode [65, 255] ≠ "" :=
  ⟨rfl, rfl, by decide⟩

/-- C7 (amended): only `InventoryService._load_csv_from_bytes` performs the
three-step fallback — UTF-8-with-BOM, then UTF-8, then `latin-1`, in that
order, taking the first attempt that decodes to non-empty text and failing
only when every attempt fails or yields empty text — while the schema-based
importer tries UTF-8-with-BOM alone and any decode error is fatal for that
file. -/
theorem decode_fallback_amended (bs : List Nat) :
    (∀ t, utf8SigDecode bs = some t → t ≠ "" → loadCsvFromBytes bs = Except.ok t) ∧
    ((utf8SigDecode bs = none ∨ utf8SigDecode bs = some "") →
      ∀ t, utf8Decode bs = some t → t ≠ "" → loadCsvFromBytes bs = Except.ok t) ∧
    ((utf8SigDecode bs = none ∨ utf8SigDecode bs = some "") →
      (utf8Decode bs = none ∨ utf8Decode bs = some "") →
      latin1Decode bs ≠ "" → loadCsvFromBytes bs = Except.ok (latin1Decode bs)) ∧
    (latin1Decode bs = "" →
      loadCsvFromBytes bs = Except.error "Failed to decode CSV data with any encoding") ∧
    (utf8SigDecode bs = none →
      importDataDecode bs = Except.error "Error importing data: UnicodeDecodeError") := by
  refine ⟨?_, ?_, ?_, ?_, ?_⟩
  · intro t h ht
    simp [loadCsvFromBytes, h, ht]
  · rintro (h | h) t h2 ht <;> simp [loadCsvFromBytes, utf8Step, h, h2, ht]
  · rintro (h | h) (h2 | h2) hl <;>
      simp [loadCsvFromBytes, utf8Step, latin1Step, h, h2, hl]
  · intro hl
    have hz : bs = [] := by
      cases bs with
      | nil => rfl
      | cons b rest =>
        have hd := congrArg String.data hl
        simp [latin1Decode] at hd
    subst hz
    rfl
  · intro h
    simp [importDataDecode, h]

/-- Witness for the amended C7: on `0x41 0xFF` both UTF-8 attempts fail and
the loader returns the `latin-1` decoding. -/
theorem decode_fallback_amended_witness :
    loadCsvFromBytes [65, 255] = Except.ok (latin1Decode [65, 255]) :=
  (decode_fallback_amended [65, 255]).2.2.1 (Or.inl (by decide)) (Or.inl (by decide))
    (by decide)

/-- C6 counterexample: with every configured format failing on the cell
`"notadate"`, `ImportField.convert` returns `None` — the raw text is NOT
retained, refuting the claim that the original string is kept. -/
theorem date_coercion_counterexample :
    ImportField.convert strpDMY chequeDateImportField "notadate" = Value.null ∧
    Value.null ≠ Value.str "notadate" :=
  ⟨rfl, by decide⟩

/-- C6 (amended): date coercion tries each configured format in order and
returns the first successful parse; when every configured format fails the
coerced value is `None` (a logged warning aside) — the raw string is
discarded, not retained. -/
theorem date_coercion_amended (strp : String → String → Option PyDate)
    (f : ImportField) (v : String) (hft : f.field_type = "datetime") (hv : v ≠ "") :
    (∀ pre fmt post dt, f.formats = pre ++ fmt :: post →
        (∀ g ∈ pre, strp g v = none) → strp fmt v = some dt →
        ImportField.convert strp f v = Value.ofDate dt) ∧
    ((∀ fmt ∈ f.formats, strp fmt v = none) →
        ImportField.convert strp f v = Value.null) := by
  have hc : ImportField.convert strp f v = parseDateWith strp f.formats v := by
    simp [ImportField.convert, hv, hft]
  constructor
  · intro pre fmt post dt hfmts hpre hfmt
    rw [hc, hfmts]
    have hfind : List.findSome? (fun g => strp g v) (pre ++ fmt :: post) = some dt := by
      rw [List.findSome?_append, List.findSome?_eq_none_iff.mpr hpre, List.findSome?_cons, hfmt]
      rfl
    simp [parseDateWith, hv, hfind]
  · intro hall
    rw [hc]
    have hfind : List.findSome? (fun g => strp g v) f.formats = none :=
      List.findSome?_eq_none_iff.mpr hall
    simp [parseDateWith, hv, hfind]

/-- Witness for the amended C6: the third configured format parses
`"15/01/2024"` after the two datetime formats fail. -/
theorem date_coercion_amended_witness :
    ImportField.convert strpDMY chequeDateImportField "15/01/2024" =
      Value.ofDate ⟨2024, 1, 15⟩ :=
  (date_coercion_amended strpDMY chequeDateImportField "15/01/2024" rfl (by decide)).1
    ["%d/%m/%Y %H:%M", "%d/%m/%Y %I:%M:%S %p"] "%d/%m/%Y" [] ⟨2024, 1, 15⟩ rfl
    (by decide) (by decide)

/-- C9 counterexample: with the sort key configured as `Due Date`, a batch
holding one row whose `Due Date` is the empty string and one row missing
the key entirely is returned UNSORTED: the comparison between the
empty-string key and the `datetime.min` default raises `TypeError` inside
`sorted`, the exception is caught, and the keyless row — whose key is the
minimum — stays last instead of sorting first.  This refutes the claim for
lists containing empty-valued sort keys. -/
theorem export_sort_counterexample :
    exportSortedData (some "Due Date") ["Due Date", "Comments"] true [emptyDueRow, noDueRow] =
      [emptyDueRow, noDueRow] ∧
    sortRecordsE pyLt (exportKey "Due Date") [emptyDueRow, noDueRow] = Except.error () ∧
    exportKey "Due Date" noDueRow = Value.ofDate dateMin ∧
    emptyDueRow ≠ noDueRow :=
  ⟨rfl, rfl, rfl, by decide⟩

theorem dateLtB_asymm (a b : PyDate) (h : dateLtB a b = true) : dateLtB b a = false := by
  simp [dateLtB] at *
  omega

theorem dateLtB_lt_of_le (x y z : PyDate) (h1 : dateLtB x y = true)
    (h2 : dateLtB z y = false) : dateLtB z x = false := by
  simp [dateLtB] at *
  omega

theorem pyLt_ofDate (a b : PyDate) :
    pyLt (Value.ofDate a) (Value.ofDate b) = some (dateLtB a b) := rfl

theorem keyDateOf_eq (k : String) (r : Record) (dt : PyDate)
    (h : exportKey k r = Value.ofDate dt) : keyDateOf k r = dt := by
  simp [keyDateOf, h, Value.ofDate, Value.dateVal]

/-- Inserting a date-keyed row into a date-keyed sorted list never raises
and preserves sortedness (stable insertion). -/
theorem insertSortedE_ok (k : String) (x : Record) (acc : List Record)
    (hx : ∃ dt, exportKey k x = Value.ofDate dt)
    (hacc : ∀ y ∈ acc, ∃ dt, exportKey k y = Value.ofDate dt)
    (hsorted : List.Pairwise
      (fun a b => dateLtB (keyDateOf k b) (keyDateOf k a) = false) acc) :
    ∃ out, insertSortedE pyLt (exportKey k) x acc = Except.ok out ∧
      (x :: acc).Perm out ∧
      List.Pairwise (fun a b => dateLtB (keyDateOf k b) (keyDateOf k a) = false) out := by
  obtain ⟨dx, hdx⟩ := hx
  have hkx : keyDateOf k x = dx := keyDateOf_eq k x dx hdx
  revert hacc hsorted
  induction acc with
  | nil =>
    intro _ _
    exact ⟨[x], rfl, List.Perm.refl _, by simp⟩
  | cons y ys ih =>
    intro hacc hsorted
    obtain ⟨dy, hdy⟩ := hacc y (by simp)
    have hky : keyDateOf k y = dy := keyDateOf_eq k y dy hdy
    obtain ⟨hhead, htail⟩ := List.pairwise_cons.mp hsorted
    have hcmp : pyLt (exportKey k x) (exportKey k y) = some (dateLtB dx dy) := by
      rw [hdx, hdy, pyLt_ofDate]
    by_cases hlt : dateLtB dx dy = true
    · refine ⟨x :: y :: ys, by simp [insertSortedE, hcmp, hlt], List.Perm.refl _, ?_⟩
      refine List.pairwise_cons.mpr ⟨?_, hsorted⟩
      intro z hz
      rcases List.mem_cons.mp hz with rfl | hz'
      · rw [hky, hkx]
        exact dateLtB_asymm dx dy hlt
      · rw [hkx]
        have hzy : dateLtB (keyDateOf k z) (keyDateOf k y) = false := hhead z hz'
        rw [hky] at hzy
        exact dateLtB_lt_of_le dx dy (keyDateOf k z) hlt hzy
    · have hfalse : dateLtB dx dy = false := Bool.eq_false_iff.mpr hlt
      obtain ⟨out', hout', hperm', hsorted'⟩ :=
        ih (fun z hz => hacc z (List.mem_cons_of_mem _ hz)) htail
      refine ⟨y :: out', ?_, ?_, ?_⟩
      · simp [insertSortedE, hcmp, hfalse, hout', Except.map]
      · exact List.Perm.trans (List.Perm.swap y x ys) (hperm'.cons y)
      · refine List.pairwise_cons.mpr ⟨?_, hsorted'⟩
        intro z hz
        rcases List.mem_cons.mp (hperm'.mem_iff.mpr hz) with rfl | hz'
        · rw [hkx, hky]
          exact hfalse
        · exact hhead z hz'

/-- Folding date-keyed rows into a sorted accumulator yields a sorted
permutation and never raises. -/
theorem sortRecordsE_fold_ok (k : String) (data : List Record) :
    ∀ acc : List Record,
      (∀ r ∈ data, ∃ dt, exportKey k r = Value.ofDate dt) →
      (∀ y ∈ acc, ∃ dt, exportKey k y = Value.ofDate dt) →
      List.Pairwise (fun a b => dateLtB (keyDateOf k b) (keyDateOf k a) = false) acc →
      ∃ out, List.foldlM (fun a x => insertSortedE pyLt (exportKey k) x a) acc data =
          Except.ok out ∧
        (data ++ acc).Perm out ∧
        List.Pairwise (fun a b => dateLtB (keyDateOf k b) (keyDateOf k a) = false) out := by
  induction data with
  | nil =>
    intro acc _ hacc hsorted
    exact ⟨acc, rfl, by simp, hsorted⟩
  | cons x rest ih =>
    intro acc hdata hacc hsorted
    obtain ⟨out1, hout1, hperm1, hsorted1⟩ :=
      insertSortedE_ok k x acc (hdata x (by simp)) hacc hsorted
    have hmem1 : ∀ y ∈ out1, ∃ dt, exportKey k y = Value.ofDate dt := by
      intro y hy
      rcases List.mem_cons.mp (hperm1.mem_iff.mpr hy) with rfl | hy'
      · exact hdata y (by simp)
      · exact hacc y hy'
    obtain ⟨out, hout, hperm, hsortedo⟩ :=
      ih out1 (fun r hr => hdata r (by simp [hr])) hmem1 hsorted1
    refine ⟨out, ?_, ?_, hsortedo⟩
    · rw [List.foldlM_cons, hout1]
      exact hout
    · exact (List.perm_middle.symm.trans ((List.Perm.append_left rest hperm1).trans hperm))

/-- Unfolding of the sorting step when a sort column is configured and
present among the headers. -/
theorem exportSortedData_pos (k : String) (headers : List String) (data : List Record)
    (hk : k ≠ "") (hin : headers.contains k = true) :
    exportSortedData (some k) headers true data =
      (match sortRecordsE pyLt (exportKey k) data with
       | Except.ok l => l
       | Except.error _ => data) := by
  simp only [exportSortedData, if_pos (And.intro hk hin), if_true]

/-- C9 (amended): when every row's sort-key value — taking `datetime.min`
for an absent key — is a `datetime`, the export sorts the rows ascending by
that key, so keyless rows (whose key is the minimum) sort first, and no
error is raised; but when a needed comparison mixes a non-date key value
(such as the empty string) with a date, `sorted` raises `TypeError`
internally, the exception is caught and the rows keep their original,
unsorted order — still without raising to the caller. -/
theorem export_sort_missing_keys_amended (k : String) (headers : List String)
    (data : List Record) (hk : k ≠ "") (hin : headers.contains k = true)
    (hdates : ∀ r ∈ data, ∃ dt : PyDate, exportKey k r = Value.ofDate dt) :
    data.Perm (exportSortedData (some k) headers true data) ∧
    List.Pairwise (fun a b => dateLtB (keyDateOf k b) (keyDateOf k a) = false)
      (exportSortedData (some k) headers true data) ∧
    (∀ r : Record, (∀ dflt, r.getD k dflt = dflt) → exportKey k r = Value.ofDate dateMin) ∧
    (∀ data2 : List Record, sortRecordsE pyLt (exportKey k) data2 = Except.error () →
        exportSortedData (some k) headers true data2 = data2) := by
  obtain ⟨out, hout, hperm, hsorted⟩ :=
    sortRecordsE_fold_ok k data [] hdates (by simp) (by simp)
  have hout' : sortRecordsE pyLt (exportKey k) data = Except.ok out := hout
  have hexp : exportSortedData (some k) headers true data = out := by
    rw [exportSortedData_pos k headers data hk hin, hout']
  refine ⟨?_, ?_, ?_, ?_⟩
  · rw [hexp]
    simpa using hperm
  · rw [hexp]
    exact hsorted
  · intro r hr
    rw [exportKey, hr]
  · intro data2 herr
    rw [exportSortedData_pos k headers data2 hk hin, herr]

/-- Witness for the amended C9: a dated row and a keyless row sort without
error into a sorted permutation (the keyless row, keyed `datetime.min`,
first). -/
theorem export_sort_missing_keys_amended_witness :
    [datedDueRow, noDueRow].Perm
      (exportSortedData (some "Due Date") ["Due Date", "Comments"] true
        [datedDueRow, noDueRow]) ∧
    List.Pairwise
      (fun a b => dateLtB (keyDateOf "Due Date" b) (keyDateOf "Due Date" a) = false)
      (exportSortedData (some "Due Date") ["Due Date", "Comments"] true
        [datedDueRow, noDueRow]) := by
  have h := export_sort_missing_keys_amended "Due Date" ["Due Date", "Comments"]
    [datedDueRow, noDueRow] (by decide) (by decide) ?_
  · exact ⟨h.1, h.2.1⟩
  · intro r hr
    simp only [List.mem_cons, List.not_mem_nil, or_false] at hr
    rcases hr with rfl | rfl
    · exact ⟨⟨2024, 5, 2⟩, rfl⟩
    · exact ⟨dateMin, rfl⟩
